import Mathlib

/-!
Shallow embedding of the client role of the secret-handshake protocol
(`src/client.rs` of sunrise-choir/shs_core) together with proofs about it.

The cryptographic primitives (message construction/verification, shared
secret computation, key and nonce derivation) are external collaborators
of this crate; they are abstracted as fields of a `Crypto` structure, and
the handshake state machine of `try_client_side` / `client_side` is
embedded as a pure function over those primitives, an explicit ephemeral
keypair, and the sequence of bytes delivered by the transport.  Every
externally visible effect (bytes written, bytes read, shared secrets
computed, stream closed) is recorded in an event trace.
-/

namespace SHS

/-- Raw bytes on the wire. -/
abbrev Bytes := List Nat

/-- Long-term identity keypair (`ssb_crypto::Keypair`). -/
structure Keypair where
  public : Nat
  secret : Nat
  deriving Repr, DecidableEq

/-- The session key bundle returned on success
(`crate::crypto::outcome::HandshakeKeys`). -/
structure HandshakeKeys where
  read_key : Nat
  read_starting_nonce : Nat
  write_key : Nat
  write_starting_nonce : Nat
  peer_key : Nat
  deriving Repr, DecidableEq

/-- The errors `try_client_side` can produce (`crate::error::HandshakeError`):
an I/O error from the transport, or one of the named protocol failures. -/
inductive HandshakeError where
  | ioError
  | serverHelloVerifyFailed
  | sharedAInvalid
  | sharedBInvalid
  | sharedCInvalid
  | serverAcceptVerifyFailed
  deriving Repr, DecidableEq

/-- Externally visible events of one handshake run, in order. -/
inductive Event where
  /-- A complete message was written to the transport. -/
  | wrote (msg : Bytes)
  /-- Exactly these bytes were read from the transport. -/
  | readBytes (buf : Bytes)
  /-- Shared secret A was computed. -/
  | gotSharedA (a : Nat)
  /-- Shared secret B was computed. -/
  | gotSharedB (b : Nat)
  /-- Shared secret C was computed. -/
  | gotSharedC (c : Nat)
  /-- `stream.close()` was invoked; `ok` records whether the close itself
  succeeded. -/
  | closed (ok : Bool)
  deriving Repr, DecidableEq

/-- The cryptographic primitives used by the client role, abstracted.
Each field corresponds to one external call made by `try_client_side`:
the message codec (`ClientHello::new`, `ServerHello::verify`,
`ClientAuth::new`, `ServerAccept::verify`), the key-agreement engine
(`SharedA/B/C::client_side`), and the session key derivation
(`server_to_client_key`, `client_to_server_key`, `starting_nonce`). -/
structure Crypto where
  /-- `ClientHello::new(&eph_pk, &net_key)` serialized. -/
  clientHello : Nat → Nat → Bytes
  /-- `size_of::<ServerHello>()`. -/
  serverHelloSize : Nat
  /-- `as_mut::<ServerHello>(&mut buf).verify(&net_key)`: returns the
  server's ephemeral public key iff verification succeeds. -/
  verifyServerHello : Bytes → Nat → Option Nat
  /-- `SharedA::client_side(&eph_sk, &server_eph_pk)`. -/
  sharedA : Nat → Nat → Option Nat
  /-- `SharedB::client_side(&eph_sk, &server_pk)`. -/
  sharedB : Nat → Nat → Option Nat
  /-- `SharedC::client_side(&keypair, &server_eph_pk)`. -/
  sharedC : Keypair → Nat → Option Nat
  /-- `ClientAuth::new(&keypair, &server_pk, &net_key, &shared_a, &shared_b)`
  serialized. -/
  clientAuth : Keypair → Nat → Nat → Nat → Nat → Bytes
  /-- `size_of::<ServerAccept>()`. -/
  serverAcceptSize : Nat
  /-- `as_ref::<ServerAccept>(&buf).verify(&keypair, &server_pk, &net_key,
  &shared_a, &shared_b, &shared_c)`. -/
  verifyServerAccept : Bytes → Keypair → Nat → Nat → Nat → Nat → Nat → Option Unit
  /-- `server_to_client_key(&client_pk, &net_key, &a, &b, &c)`. -/
  serverToClientKey : Nat → Nat → Nat → Nat → Nat → Nat
  /-- `client_to_server_key(&server_pk, &net_key, &a, &b, &c)`. -/
  clientToServerKey : Nat → Nat → Nat → Nat → Nat → Nat
  /-- `starting_nonce(&net_key, &eph_pk)`. -/
  startingNonce : Nat → Nat → Nat

/-- `stream.read_exact(&mut buf)` for a buffer of `n` bytes over a stream
that will deliver `input`: returns the bytes read and the rest of the
stream, or `none` for an I/O error (unexpected EOF). -/
def readExact (n : Nat) (input : List Nat) : Option (Bytes × List Nat) :=
  if n ≤ input.length then some (input.take n, input.drop n) else none

/-- Shallow embedding of `try_client_side` (src/client.rs lines 32–94).
The ephemeral keypair, generated inside the Rust function, is an explicit
input here.  Returns the result together with the ordered event trace. -/
def tryClientSide (c : Crypto) (netKey : Nat) (keypair : Keypair)
    (serverPk : Nat) (ephPk ephSk : Nat) (input : List Nat) :
    Except HandshakeError HandshakeKeys × List Event :=
  -- send(&mut stream, ClientHello::new(&eph_pk, &net_key)).await?
  let hello := c.clientHello ephPk netKey
  let tr0 := [Event.wrote hello]
  -- stream.read_exact(&mut buf).await? for buf : [u8; size_of::<ServerHello>()]
  match readExact c.serverHelloSize input with
  | none => (.error .ioError, tr0)
  | some (buf1, input1) =>
    let tr1 := tr0 ++ [Event.readBytes buf1]
    -- as_mut::<ServerHello>(&mut buf).verify(&net_key).ok_or(ServerHelloVerifyFailed)?
    match c.verifyServerHello buf1 netKey with
    | none => (.error .serverHelloVerifyFailed, tr1)
    | some serverEphPk =>
      -- SharedA::client_side(&eph_sk, &server_eph_pk).ok_or(SharedAInvalid)?
      match c.sharedA ephSk serverEphPk with
      | none => (.error .sharedAInvalid, tr1)
      | some a =>
        let tr2 := tr1 ++ [Event.gotSharedA a]
        -- SharedB::client_side(&eph_sk, &server_pk).ok_or(SharedBInvalid)?
        match c.sharedB ephSk serverPk with
        | none => (.error .sharedBInvalid, tr2)
        | some b =>
          let tr3 := tr2 ++ [Event.gotSharedB b]
          -- SharedC::client_side(&keypair, &server_eph_pk).ok_or(SharedCInvalid)?
          match c.sharedC keypair serverEphPk with
          | none => (.error .sharedCInvalid, tr3)
          | some cc =>
            let tr4 := tr3 ++ [Event.gotSharedC cc]
            -- send(&mut stream, ClientAuth::new(&keypair, &server_pk, &net_key,
            --                                   &shared_a, &shared_b)).await?
            let auth := c.clientAuth keypair serverPk netKey a b
            let tr5 := tr4 ++ [Event.wrote auth]
            -- stream.read_exact(&mut buf).await? for [u8; size_of::<ServerAccept>()]
            match readExact c.serverAcceptSize input1 with
            | none => (.error .ioError, tr5)
            | some (buf2, _) =>
              let tr6 := tr5 ++ [Event.readBytes buf2]
              -- as_ref::<ServerAccept>(&buf).verify(&keypair, &server_pk,
              --   &net_key, &shared_a, &shared_b, &shared_c)
              --   .ok_or(ServerAcceptVerifyFailed)?
              match c.verifyServerAccept buf2 keypair serverPk netKey a b cc with
              | none => (.error .serverAcceptVerifyFailed, tr6)
              | some _ =>
                (.ok {
                  read_key := c.serverToClientKey keypair.public netKey a b cc
                  read_starting_nonce := c.startingNonce netKey ephPk
                  write_key := c.clientToServerKey serverPk netKey a b cc
                  write_starting_nonce := c.startingNonce netKey serverEphPk
                  peer_key := serverPk }, tr6)

/-- Shallow embedding of the public wrapper `client_side`
(src/client.rs lines 16–30): run `try_client_side`; if it returned an
error, call `stream.close()` and discard the close's own outcome
(`unwrap_or(())`), then hand back the original result.  `closeOk` is
whether the close call itself would succeed. -/
def clientSide (c : Crypto) (netKey : Nat) (keypair : Keypair)
    (serverPk : Nat) (ephPk ephSk : Nat) (input : List Nat) (closeOk : Bool) :
    Except HandshakeError HandshakeKeys × List Event :=
  let r := tryClientSide c netKey keypair serverPk ephPk ephSk input
  match r.1 with
  | .error e => (.error e, r.2 ++ [Event.closed closeOk])
  | .ok k => (.ok k, r.2)

/-- The messages written to the transport during a run: the payloads of
the `wrote` events of its trace, in order. -/
def writes (tr : List Event) : List Bytes :=
  tr.filterMap fun e => match e with | .wrote m => some m | _ => none

/-- Whether any shared secret was computed during a run. -/
def computedAnyShared (tr : List Event) : Bool :=
  tr.any fun e => match e with
    | .gotSharedA _ => true
    | .gotSharedB _ => true
    | .gotSharedC _ => true
    | _ => false

/-- Whether the stream was closed during a run. -/
def didClose (tr : List Event) : Bool :=
  tr.any fun e => match e with | .closed _ => true | _ => false

/-- A concrete instantiation of the abstract primitives, used only to
evaluate the handshake state machine on explicit inputs (witnesses and
counterexamples).  It is injective enough to distinguish every argument
position: each primitive encodes its inputs into its output. -/
def toyCrypto : Crypto where
  clientHello e n := [1, e, n]
  serverHelloSize := 2
  verifyServerHello buf n :=
    match buf with
    | [t, k] => if t = n then some k else none
    | _ => none
  sharedA s p := if p = 0 then none else some (1000 * s + p)
  sharedB s p := if p = 0 then none else some (1000 * s + p + 1)
  sharedC kp p := if p = 0 ∨ kp.secret = 0 then none else some (1000 * kp.secret + p + 2)
  clientAuth kp spk n a b := [2, kp.public, spk, n, a, b]
  serverAcceptSize := 1
  verifyServerAccept buf _ _ n a b c :=
    match buf with
    | [t] => if t = n + a + b + c then some () else none
    | _ => none
  serverToClientKey cpk n a b c := 10 * (cpk + n + a + b + c)
  clientToServerKey spk n a b c := 10 * (spk + n + a + b + c) + 1
  startingNonce n p := 1000 * n + p

/-- The key bundle produced by the successful `toyCrypto` run with
network key 5, keypair ⟨7, 8⟩, server key 9, ephemeral keypair (3, 4)
and transport input `[5, 6, 16029]`. -/
def okKeys : HandshakeKeys :=
  { read_key := 160360, read_starting_nonce := 5003,
    write_key := 160381, write_starting_nonce := 5006, peer_key := 9 }

/-- The trace of that successful run. -/
def okTrace : List Event :=
  [.wrote [1, 3, 5], .readBytes [5, 6], .gotSharedA 4006, .gotSharedB 4010,
   .gotSharedC 8008, .wrote [2, 7, 9, 5, 4006, 4010], .readBytes [16029]]

theorem readExact_some {n : Nat} {input buf rest : List Nat}
    (h : readExact n input = some (buf, rest)) :
    n ≤ input.length ∧ buf = input.take n ∧ rest = input.drop n := by
  unfold readExact at h
  split at h
  · rename_i hle
    simp only [Option.some.injEq, Prod.mk.injEq] at h
    exact ⟨hle, h.1.symm, h.2.symm⟩
  · exact absurd h (by simp)

/-- Complete characterization of a successful run of `try_client_side`:
every verification and key-agreement step succeeded, and the key bundle
and event trace are exactly determined by them. -/
theorem ok_shape {c : Crypto} {netKey : Nat} {kp : Keypair} {spk epk esk : Nat}
    {input : List Nat} {keys : HandshakeKeys} {tr : List Event}
    (h : tryClientSide c netKey kp spk epk esk input = (.ok keys, tr)) :
    ∃ sepk a b cc,
      c.serverHelloSize ≤ input.length ∧
      c.serverAcceptSize ≤ (input.drop c.serverHelloSize).length ∧
      c.verifyServerHello (input.take c.serverHelloSize) netKey = some sepk ∧
      c.sharedA esk sepk = some a ∧
      c.sharedB esk spk = some b ∧
      c.sharedC kp sepk = some cc ∧
      c.verifyServerAccept ((input.drop c.serverHelloSize).take c.serverAcceptSize)
        kp spk netKey a b cc = some () ∧
      keys = { read_key := c.serverToClientKey kp.public netKey a b cc
               read_starting_nonce := c.startingNonce netKey epk
               write_key := c.clientToServerKey spk netKey a b cc
               write_starting_nonce := c.startingNonce netKey sepk
               peer_key := spk } ∧
      tr = [.wrote (c.clientHello epk netKey),
            .readBytes (input.take c.serverHelloSize),
            .gotSharedA a, .gotSharedB b, .gotSharedC cc,
            .wrote (c.clientAuth kp spk netKey a b),
            .readBytes ((input.drop c.serverHelloSize).take c.serverAcceptSize)] := by
  unfold tryClientSide at h
  split at h
  · simp at h
  · rename_i buf1 input1 hre1
    split at h
    · simp at h
    · rename_i sepk hv1
      split at h
      · simp at h
      · rename_i a ha
        split at h
        · simp at h
        · rename_i b hb
          split at h
          · simp at h
          · rename_i cc hc
            split at h
            · simp at h
            · rename_i buf2 input2 hre2
              split at h
              · simp at h
              · rename_i u hv2
                simp only [Prod.mk.injEq, Except.ok.injEq] at h
                obtain ⟨hkeys, htr⟩ := h
                obtain ⟨hle1, hbuf1, hrest1⟩ := readExact_some hre1
                subst hbuf1; subst hrest1
                obtain ⟨hle2, hbuf2, hrest2⟩ := readExact_some hre2
                subst hbuf2
                cases u
                exact ⟨sepk, a, b, cc, hle1, hle2, hv1, ha, hb, hc, hv2,
                  hkeys.symm, htr.symm⟩

/-- `try_client_side` never closes the stream: no `closed` event ever
appears in its trace (closing is done only by the `client_side` wrapper). -/
theorem tryClientSide_no_close (c : Crypto) (netKey : Nat) (kp : Keypair)
    (spk epk esk : Nat) (input : List Nat) :
    didClose (tryClientSide c netKey kp spk epk esk input).2 = false := by
  unfold tryClientSide
  repeat' split
  all_goals simp [didClose]

/-- C1 (counterexample): the claim says the client's read starting nonce
is derived from the server's ephemeral public key.  On a concrete
successful run whose received server ephemeral key is 6 and whose own
ephemeral key is 3, the bundle's read starting nonce is
`starting_nonce(net_key, 3)` — the client's own ephemeral key — and is
not `starting_nonce(net_key, 6)`. -/
theorem C1_counterexample :
    (tryClientSide toyCrypto 5 ⟨7, 8⟩ 9 3 4 [5, 6, 16029]).1 = .ok okKeys ∧
    toyCrypto.verifyServerHello [5, 6] 5 = some 6 ∧
    okKeys.read_starting_nonce ≠ toyCrypto.startingNonce 5 6 ∧
    okKeys.read_starting_nonce = toyCrypto.startingNonce 5 3 ∧
    okKeys.write_starting_nonce = toyCrypto.startingNonce 5 6 :=
  ⟨rfl, rfl, by decide, rfl, rfl⟩

/-- C1 (amended): on client success, the read starting nonce is derived
from the network key and the client's own ephemeral public key, and the
write starting nonce from the network key and the server's ephemeral
public key (the verified one received in ServerHello); the two nonces
differ whenever the derivation is injective and the two ephemeral keys
differ. -/
theorem C1_starting_nonces (c : Crypto) (netKey : Nat) (kp : Keypair)
    (spk epk esk : Nat) (input : List Nat) (keys : HandshakeKeys) (tr : List Event)
    (h : tryClientSide c netKey kp spk epk esk input = (.ok keys, tr)) :
    ∃ sepk,
      c.verifyServerHello (input.take c.serverHelloSize) netKey = some sepk ∧
      keys.read_starting_nonce = c.startingNonce netKey epk ∧
      keys.write_starting_nonce = c.startingNonce netKey sepk ∧
      (Function.Injective (c.startingNonce netKey) → epk ≠ sepk →
        keys.read_starting_nonce ≠ keys.write_starting_nonce) := by
  obtain ⟨sepk, a, b, cc, _, _, hv1, _, _, _, _, hkeys, _⟩ := ok_shape h
  subst hkeys
  exact ⟨sepk, hv1, rfl, rfl, fun hinj hne hEq => hne (hinj hEq)⟩

theorem C1_starting_nonces_witness :
    ∃ sepk,
      toyCrypto.verifyServerHello ([5, 6, 16029].take toyCrypto.serverHelloSize) 5
        = some sepk ∧
      okKeys.read_starting_nonce = toyCrypto.startingNonce 5 3 ∧
      okKeys.write_starting_nonce = toyCrypto.startingNonce 5 sepk ∧
      (Function.Injective (toyCrypto.startingNonce 5) → 3 ≠ sepk →
        okKeys.read_starting_nonce ≠ okKeys.write_starting_nonce) :=
  C1_starting_nonces toyCrypto 5 ⟨7, 8⟩ 9 3 4 [5, 6, 16029] okKeys okTrace rfl

/-- C2 (counterexample): the claim says a `SharedCInvalid` failure can
only occur after ClientAuth was written.  On a concrete run whose
Shared Secret C computation fails (identity secret 0), the result is
`SharedCInvalid` while the only message ever written is ClientHello:
ClientAuth was never sent. -/
theorem C2_counterexample :
    (tryClientSide toyCrypto 5 ⟨7, 0⟩ 9 3 4 [5, 6]).1 = .error .sharedCInvalid ∧
    writes (tryClientSide toyCrypto 5 ⟨7, 0⟩ 9 3 4 [5, 6]).2
      = [toyCrypto.clientHello 3 5] ∧
    toyCrypto.clientAuth ⟨7, 0⟩ 9 5 4006 4010
      ∉ writes (tryClientSide toyCrypto 5 ⟨7, 0⟩ 9 3 4 [5, 6]).2 :=
  ⟨rfl, rfl, by decide⟩

/-- C2 (amended): in the client role, Shared Secret C is computed after
A and B and before ClientAuth is built and sent, so a `SharedCInvalid`
failure occurs before ClientAuth was written to the transport: on any
run that fails with `SharedCInvalid`, the only message written is
ClientHello. -/
theorem C2_sharedC_before_auth (c : Crypto) (netKey : Nat) (kp : Keypair)
    (spk epk esk : Nat) (input : List Nat) (tr : List Event)
    (h : tryClientSide c netKey kp spk epk esk input = (.error .sharedCInvalid, tr)) :
    writes tr = [c.clientHello epk netKey] := by
  unfold tryClientSide at h
  split at h
  · simp at h
  · rename_i buf1 input1 hre1
    split at h
    · simp at h
    · rename_i sepk hv1
      split at h
      · simp at h
      · rename_i a ha
        split at h
        · simp at h
        · rename_i b hb
          split at h
          · rename_i hc
            simp only [Prod.mk.injEq, Except.error.injEq] at h
            rw [← h.2]
            simp [writes]
          · rename_i cc hc
            split at h
            · simp at h
            · rename_i buf2 input2 hre2
              split at h
              · simp at h
              · simp at h

theorem C2_sharedC_before_auth_witness :
    writes [Event.wrote [1, 3, 5], Event.readBytes [5, 6],
            Event.gotSharedA 4006, Event.gotSharedB 4010]
      = [toyCrypto.clientHello 3 5] :=
  C2_sharedC_before_auth toyCrypto 5 ⟨7, 0⟩ 9 3 4 [5, 6] _ rfl

/-- C3: on client success, the write key is derived by the
client-to-server derivation anchored at the server's long-term public
key, and the read key by the server-to-client derivation anchored at
the client's long-term public key, both over the network key and
shared secrets A, B, C. -/
theorem C3_directional_keys (c : Crypto) (netKey : Nat) (kp : Keypair)
    (spk epk esk : Nat) (input : List Nat) (keys : HandshakeKeys) (tr : List Event)
    (h : tryClientSide c netKey kp spk epk esk input = (.ok keys, tr)) :
    ∃ sepk a b cc,
      c.verifyServerHello (input.take c.serverHelloSize) netKey = some sepk ∧
      c.sharedA esk sepk = some a ∧
      c.sharedB esk spk = some b ∧
      c.sharedC kp sepk = some cc ∧
      keys.write_key = c.clientToServerKey spk netKey a b cc ∧
      keys.read_key = c.serverToClientKey kp.public netKey a b cc := by
  obtain ⟨sepk, a, b, cc, _, _, hv1, ha, hb, hc, _, hkeys, _⟩ := ok_shape h
  subst hkeys
  exact ⟨sepk, a, b, cc, hv1, ha, hb, hc, rfl, rfl⟩

theorem C3_directional_keys_witness :
    ∃ sepk a b cc,
      toyCrypto.verifyServerHello ([5, 6, 16029].take toyCrypto.serverHelloSize) 5
        = some sepk ∧
      toyCrypto.sharedA 4 sepk = some a ∧
      toyCrypto.sharedB 4 9 = some b ∧
      toyCrypto.sharedC ⟨7, 8⟩ sepk = some cc ∧
      okKeys.write_key = toyCrypto.clientToServerKey 9 5 a b cc ∧
      okKeys.read_key = toyCrypto.serverToClientKey 7 5 a b cc :=
  C3_directional_keys toyCrypto 5 ⟨7, 8⟩ 9 3 4 [5, 6, 16029] okKeys okTrace rfl

/-- C4: whenever `client_side` returns an error, the stream is closed
as a best-effort side effect before the error is returned, and the
returned error is always the original handshake error: whether the
close itself succeeds or fails (`closeOk`), the result is unchanged and
a `closed` event is appended to the trace. -/
theorem C4_close_on_error (c : Crypto) (netKey : Nat) (kp : Keypair)
    (spk epk esk : Nat) (input : List Nat) (e : HandshakeError) (tr : List Event)
    (h : tryClientSide c netKey kp spk epk esk input = (.error e, tr))
    (closeOk : Bool) :
    clientSide c netKey kp spk epk esk input closeOk
      = (.error e, tr ++ [.closed closeOk]) := by
  simp only [clientSide, h]

theorem C4_close_on_error_witness :
    clientSide toyCrypto 5 ⟨7, 8⟩ 9 3 4 [0, 6] false
      = (.error .serverHelloVerifyFailed,
         [.wrote [1, 3, 5], .readBytes [0, 6], .closed false]) :=
  C4_close_on_error toyCrypto 5 ⟨7, 8⟩ 9 3 4 [0, 6] .serverHelloVerifyFailed
    [.wrote [1, 3, 5], .readBytes [0, 6]] rfl false

/-- C5: the client blocks on exactly `sizeof(ServerHello)` bytes and
verifies them against the network key; if verification fails the run
ends with `ServerHelloVerifyFailed`, the trace shows exactly those
bytes read after the ClientHello write, and no shared secret was
derived from the received bytes. -/
theorem C5_serverHello_verify (c : Crypto) (netKey : Nat) (kp : Keypair)
    (spk epk esk : Nat) (input : List Nat)
    (hlen : c.serverHelloSize ≤ input.length)
    (hv : c.verifyServerHello (input.take c.serverHelloSize) netKey = none) :
    tryClientSide c netKey kp spk epk esk input
      = (.error .serverHelloVerifyFailed,
         [.wrote (c.clientHello epk netKey),
          .readBytes (input.take c.serverHelloSize)]) ∧
    computedAnyShared (tryClientSide c netKey kp spk epk esk input).2 = false := by
  have hre : readExact c.serverHelloSize input
      = some (input.take c.serverHelloSize, input.drop c.serverHelloSize) := by
    unfold readExact
    rw [if_pos hlen]
  refine ⟨?_, ?_⟩ <;> simp [tryClientSide, hre, hv, computedAnyShared]

theorem C5_serverHello_verify_witness :
    tryClientSide toyCrypto 5 ⟨7, 8⟩ 9 3 4 [0, 6]
      = (.error .serverHelloVerifyFailed, [.wrote [1, 3, 5], .readBytes [0, 6]]) ∧
    computedAnyShared (tryClientSide toyCrypto 5 ⟨7, 8⟩ 9 3 4 [0, 6]).2 = false :=
  C5_serverHello_verify toyCrypto 5 ⟨7, 8⟩ 9 3 4 [0, 6] (by decide) rfl

/-- C6: after ServerHello verification, Shared Secret A is computed
from the client's ephemeral secret and the server's ephemeral public
key, and Shared Secret B from the ephemeral secret and the server's
long-term public key; if either fails the run ends with
`SharedAInvalid` / `SharedBInvalid` respectively and no message beyond
the initial ClientHello was written to the transport. -/
theorem C6_shared_secret_failures (c : Crypto) (netKey : Nat) (kp : Keypair)
    (spk epk esk sepk : Nat) (input : List Nat)
    (hlen : c.serverHelloSize ≤ input.length)
    (hv : c.verifyServerHello (input.take c.serverHelloSize) netKey = some sepk) :
    (c.sharedA esk sepk = none →
      (tryClientSide c netKey kp spk epk esk input).1 = .error .sharedAInvalid ∧
      writes (tryClientSide c netKey kp spk epk esk input).2
        = [c.clientHello epk netKey]) ∧
    (∀ a, c.sharedA esk sepk = some a → c.sharedB esk spk = none →
      (tryClientSide c netKey kp spk epk esk input).1 = .error .sharedBInvalid ∧
      writes (tryClientSide c netKey kp spk epk esk input).2
        = [c.clientHello epk netKey]) := by
  have hre : readExact c.serverHelloSize input
      = some (input.take c.serverHelloSize, input.drop c.serverHelloSize) := by
    unfold readExact
    rw [if_pos hlen]
  constructor
  · intro hA
    constructor <;> simp [tryClientSide, hre, hv, hA, writes]
  · intro a hA hB
    constructor <;> simp [tryClientSide, hre, hv, hA, hB, writes]

theorem C6_shared_secret_failures_witness :
    (tryClientSide toyCrypto 5 ⟨7, 8⟩ 9 3 4 [5, 0]).1 = .error .sharedAInvalid ∧
    writes (tryClientSide toyCrypto 5 ⟨7, 8⟩ 9 3 4 [5, 0]).2
      = [toyCrypto.clientHello 3 5] :=
  (C6_shared_secret_failures toyCrypto 5 ⟨7, 8⟩ 9 3 4 0 [5, 0] (by decide) rfl).1 rfl

/-- C7: the client blocks on exactly `sizeof(ServerAccept)` bytes and
verifies them using the keypair, server public key, network key and
shared secrets A, B, C; if that verification fails the run ends with
`ServerAcceptVerifyFailed` and no session key bundle is returned. -/
theorem C7_serverAccept_verify (c : Crypto) (netKey : Nat) (kp : Keypair)
    (spk epk esk sepk a b cc : Nat) (input : List Nat)
    (hlen1 : c.serverHelloSize ≤ input.length)
    (hv1 : c.verifyServerHello (input.take c.serverHelloSize) netKey = some sepk)
    (ha : c.sharedA esk sepk = some a)
    (hb : c.sharedB esk spk = some b)
    (hc : c.sharedC kp sepk = some cc)
    (hlen2 : c.serverAcceptSize ≤ (input.drop c.serverHelloSize).length)
    (hv2 : c.verifyServerAccept
        ((input.drop c.serverHelloSize).take c.serverAcceptSize)
        kp spk netKey a b cc = none) :
    tryClientSide c netKey kp spk epk esk input
      = (.error .serverAcceptVerifyFailed,
         [.wrote (c.clientHello epk netKey),
          .readBytes (input.take c.serverHelloSize),
          .gotSharedA a, .gotSharedB b, .gotSharedC cc,
          .wrote (c.clientAuth kp spk netKey a b),
          .readBytes ((input.drop c.serverHelloSize).take c.serverAcceptSize)]) ∧
    ∀ keys, (tryClientSide c netKey kp spk epk esk input).1 ≠ .ok keys := by
  have hre1 : readExact c.serverHelloSize input
      = some (input.take c.serverHelloSize, input.drop c.serverHelloSize) := by
    unfold readExact
    rw [if_pos hlen1]
  have hre2 : readExact c.serverAcceptSize (input.drop c.serverHelloSize)
      = some ((input.drop c.serverHelloSize).take c.serverAcceptSize,
              (input.drop c.serverHelloSize).drop c.serverAcceptSize) := by
    unfold readExact
    rw [if_pos hlen2]
  refine ⟨?_, ?_⟩ <;>
    simp [tryClientSide, hre1, hv1, ha, hb, hc, hre2, hv2]

theorem C7_serverAccept_verify_witness :
    tryClientSide toyCrypto 5 ⟨7, 8⟩ 9 3 4 [5, 6, 0]
      = (.error .serverAcceptVerifyFailed,
         [.wrote [1, 3, 5], .readBytes [5, 6], .gotSharedA 4006, .gotSharedB 4010,
          .gotSharedC 8008, .wrote [2, 7, 9, 5, 4006, 4010], .readBytes [0]]) ∧
    ∀ keys, (tryClientSide toyCrypto 5 ⟨7, 8⟩ 9 3 4 [5, 6, 0]).1 ≠ .ok keys :=
  C7_serverAccept_verify toyCrypto 5 ⟨7, 8⟩ 9 3 4 6 4006 4010 8008 [5, 6, 0]
    (by decide) rfl rfl rfl rfl (by decide) rfl

/-- C8: on success, the `peer_key` field of the returned bundle is
exactly the expected server public key argument the caller passed in,
for every possible sequence of bytes delivered by the transport. -/
theorem C8_peer_key (c : Crypto) (netKey : Nat) (kp : Keypair)
    (spk epk esk : Nat) (input : List Nat) (keys : HandshakeKeys) (tr : List Event)
    (h : tryClientSide c netKey kp spk epk esk input = (.ok keys, tr)) :
    keys.peer_key = spk := by
  obtain ⟨sepk, a, b, cc, _, _, _, _, _, _, _, hkeys, _⟩ := ok_shape h
  rw [hkeys]

theorem C8_peer_key_witness : okKeys.peer_key = 9 :=
  C8_peer_key toyCrypto 5 ⟨7, 8⟩ 9 3 4 [5, 6, 16029] okKeys okTrace rfl

/-- C9: when `client_side` returns Ok it has not closed the stream:
the wrapper's result is exactly `try_client_side`'s result, and no
`closed` event occurs in the trace. -/
theorem C9_no_close_on_success (c : Crypto) (netKey : Nat) (kp : Keypair)
    (spk epk esk : Nat) (input : List Nat) (closeOk : Bool) (keys : HandshakeKeys)
    (h : (clientSide c netKey kp spk epk esk input closeOk).1 = .ok keys) :
    clientSide c netKey kp spk epk esk input closeOk
      = tryClientSide c netKey kp spk epk esk input ∧
    didClose (clientSide c netKey kp spk epk esk input closeOk).2 = false := by
  have hnc := tryClientSide_no_close c netKey kp spk epk esk input
  rcases hr : tryClientSide c netKey kp spk epk esk input with ⟨res, tr⟩
  rw [hr] at hnc
  simp only [clientSide, hr] at h ⊢
  cases res with
  | error e => simp at h
  | ok k => exact ⟨rfl, hnc⟩

theorem C9_no_close_on_success_witness :
    clientSide toyCrypto 5 ⟨7, 8⟩ 9 3 4 [5, 6, 16029] true
      = tryClientSide toyCrypto 5 ⟨7, 8⟩ 9 3 4 [5, 6, 16029] ∧
    didClose (clientSide toyCrypto 5 ⟨7, 8⟩ 9 3 4 [5, 6, 16029] true).2 = false :=
  C9_no_close_on_success toyCrypto 5 ⟨7, 8⟩ 9 3 4 [5, 6, 16029] true okKeys rfl

/-- C10: with the ephemeral keypair as an explicit input,
`try_client_side` is deterministic: two runs with the same network key,
identity keypair, server public key, ephemeral keypair and delivered
transport bytes produce the same result and write the same byte
sequences to the transport. -/
theorem C10_deterministic (c : Crypto) (netKey netKey' : Nat) (kp kp' : Keypair)
    (spk spk' epk epk' esk esk' : Nat) (input input' : List Nat)
    (h1 : netKey = netKey') (h2 : kp = kp') (h3 : spk = spk')
    (h4 : epk = epk') (h5 : esk = esk') (h6 : input = input') :
    tryClientSide c netKey kp spk epk esk input
      = tryClientSide c netKey' kp' spk' epk' esk' input' ∧
    writes (tryClientSide c netKey kp spk epk esk input).2
      = writes (tryClientSide c netKey' kp' spk' epk' esk' input').2 := by
  subst h1 h2 h3 h4 h5 h6
  exact ⟨rfl, rfl⟩

theorem C10_deterministic_witness :
    tryClientSide toyCrypto 5 ⟨7, 8⟩ 9 3 4 [5, 6, 16029]
      = tryClientSide toyCrypto 5 ⟨7, 8⟩ 9 3 4 [5, 6, 16029] ∧
    writes (tryClientSide toyCrypto 5 ⟨7, 8⟩ 9 3 4 [5, 6, 16029]).2
      = writes (tryClientSide toyCrypto 5 ⟨7, 8⟩ 9 3 4 [5, 6, 16029]).2 :=
  C10_deterministic toyCrypto 5 5 ⟨7, 8⟩ ⟨7, 8⟩ 9 9 3 3 4 4
    [5, 6, 16029] [5, 6, 16029] rfl rfl rfl rfl rfl rfl

end SHS
